import Mathlib

/-!
Shallow embedding of the dataset normalization, filtering and statistics
engine and of the accreditation synchronization workflow of the dashboard
repository (`dashboard_app/services.py`, `dashboard_app/models.py`).

Python strings are modelled as Lean `String`; Python `None`-able values as
`Option`; Python exceptions escaping a function as `Except`.  Python's
`str.lower()` is modelled on the ASCII and Cyrillic ranges (the only
alphabets the vocabulary of the source uses); `str.strip()` uses the
code-point set Python treats as whitespace.
-/

namespace Dashboard

/-! ### Python string primitives used by the service layer -/

/-- Code points Python `str.strip()` removes (Python str whitespace). -/
def isPyWs (c : Char) : Bool :=
  ([9, 10, 11, 12, 13, 28, 29, 30, 31, 32, 133, 160, 0x1680,
    0x2000, 0x2001, 0x2002, 0x2003, 0x2004, 0x2005, 0x2006, 0x2007,
    0x2008, 0x2009, 0x200A, 0x2028, 0x2029, 0x202F, 0x205F, 0x3000] : List Nat).contains c.toNat

/-- Python `str.strip()`: drop whitespace from both ends. -/
def pyStrip (s : String) : String :=
  ⟨((s.data.dropWhile isPyWs).reverse.dropWhile isPyWs).reverse⟩

/-- Python `str.lower()` on one character, for the ASCII and Cyrillic
letters (`А`..`Я` and `Ё`); other characters are left unchanged. -/
def lowerChar (c : Char) : Char :=
  if 65 ≤ c.toNat ∧ c.toNat ≤ 90 then Char.ofNat (c.toNat + 32)
  else if 0x410 ≤ c.toNat ∧ c.toNat ≤ 0x42F then Char.ofNat (c.toNat + 32)
  else if c.toNat = 0x401 then Char.ofNat 0x451
  else c

/-- Python `str.lower()` (ASCII and Cyrillic). -/
def lowerStr (s : String) : String := ⟨s.data.map lowerChar⟩

/-- Boolean list-prefix test. -/
def isPrefixOfB : List Char → List Char → Bool
  | [], _ => true
  | _ :: _, [] => false
  | a :: xs, b :: ys => (a == b) && isPrefixOfB xs ys

/-- Boolean list-infix test (search at every offset). -/
def isInfixOfB : List Char → List Char → Bool
  | needle, [] => needle.isEmpty
  | needle, c :: rest => isPrefixOfB needle (c :: rest) || isInfixOfB needle rest

/-- Python substring test `sub in hay`. -/
def containsSub (hay sub : String) : Bool := isInfixOfB sub.data hay.data

/-- Python `hay.startswith(pre)`. -/
def startsWithB (hay pre : String) : Bool := isPrefixOfB pre.data hay.data

/-- Base-10 value of a digit list (most significant first). -/
def natOfDigits (ds : List Char) : Nat :=
  ds.foldl (fun n c => n * 10 + (c.toNat - 48)) 0

/-- Split an optional leading `+`/`-` sign off a character list; the
returned flag is true for `-`. -/
def pySignSplit : List Char → Bool × List Char
  | '+' :: r => (false, r)
  | '-' :: r => (true, r)
  | r => (false, r)

/-- After the first digit of a Python `int()` literal: digits with single
underscores allowed only between digits (PEP 515). -/
def intDigitsRest : List Char → Bool
  | [] => true
  | '_' :: c :: cs => c.isDigit && intDigitsRest cs
  | c :: cs => c.isDigit && intDigitsRest cs

/-- Digit run accepted by Python `int()` after the sign. -/
def isIntBody : List Char → Bool
  | [] => false
  | c :: cs => c.isDigit && intDigitsRest cs

/-- Python `int(str)` in base 10: surrounding whitespace allowed, optional
sign, ASCII digits with underscores between digits; anything else is a
`ValueError`, modelled as `none`.  (Non-ASCII decimal digits, which Python
also accepts, are not modelled.) -/
def pyParseInt (s : String) : Option Int :=
  let sp := pySignSplit (pyStrip s).data
  if isIntBody sp.2 then
    let n : Int := natOfDigits (sp.2.filter (fun c => c != '_'))
    some (if sp.1 then -n else n)
  else none

/-! ### The `decimal.Decimal` fragment `_parse_money` relies on -/

/-- Value classes of a parsed `Decimal`: finite `mant × 10 ^ exp`,
infinity, or (quiet/signaling) NaN. -/
inductive DecimalVal where
  | finite (mant : Int) (exp : Int)
  | infty (neg : Bool)
  | nan
deriving DecidableEq

/-- Split a character list at the first character satisfying `p`; the
second component is `none` when no such character occurs. -/
def splitAtFirst (p : Char → Bool) : List Char → List Char × Option (List Char)
  | [] => ([], none)
  | c :: cs =>
    if p c then ([], some cs)
    else
      let r := splitAtFirst p cs
      (c :: r.1, r.2)

/-- Lowercased `nan`/`snan` body with an optional diagnostic digit run. -/
def isNanBody : List Char → Bool
  | 'n' :: 'a' :: 'n' :: ds => ds.all Char.isDigit
  | 's' :: 'n' :: 'a' :: 'n' :: ds => ds.all Char.isDigit
  | _ => false

/-- Exponent part after `e`/`E`: optional sign then required digits. -/
def parseExpPart (cs : List Char) : Option Int :=
  let sp := pySignSplit cs
  if (! sp.2.isEmpty) && sp.2.all Char.isDigit then
    some (if sp.1 then -(natOfDigits sp.2 : Int) else (natOfDigits sp.2 : Int))
  else none

/-- The `decimal` module's numeric-string grammar (`_pydecimal`): strip
whitespace, drop underscores, optional sign, then either `inf`/`infinity`,
`[s]nan[digits]`, or `digits[.digits][e[sign]digits]` with at least one
digit in the coefficient; case-insensitive.  `none` models the
`InvalidOperation` the `Decimal` constructor raises. -/
def decimalOfString (s : String) : Option DecimalVal :=
  let cs := (pyStrip s).data.filter (fun c => c != '_')
  let sp := pySignSplit cs
  let lb := sp.2.map lowerChar
  if lb = "inf".data ∨ lb = "infinity".data then
    some (DecimalVal.infty sp.1)
  else if isNanBody lb then
    some DecimalVal.nan
  else
    let me := splitAtFirst (fun c => c == 'e' || c == 'E') sp.2
    let ipfp := splitAtFirst (fun c => c == '.') me.1
    let ip := ipfp.1
    let fp := (ipfp.2).getD []
    let expVal : Option Int :=
      match me.2 with
      | none => some 0
      | some ecs => parseExpPart ecs
    match expVal with
    | none => none
    | some e =>
      if ip.all Char.isDigit && fp.all Char.isDigit && (! ip.isEmpty || ! fp.isEmpty) then
        let mantNat := natOfDigits (ip ++ fp)
        let mant : Int := if sp.1 then -(mantNat : Int) else (mantNat : Int)
        some (DecimalVal.finite mant (e - fp.length))
      else none

/-- Round-half-up division of `a` by `d = 10 ^ k` (ties rounded up);
the caller applies the sign, so ties go away from zero. -/
def halfUpDivNat (a d : Nat) : Nat := (a + d / 2) / d

/-- `int(x.quantize(Decimal(1), rounding=ROUND_HALF_UP))` for a parsed
`Decimal` `x`, including the exceptions the source does NOT catch:
quantizing an infinity or a signaling NaN raises `InvalidOperation`,
`int()` of a NaN raises `InvalidOperation`, and a quantize result whose
coefficient exceeds the default 28-digit context precision raises
`InvalidOperation`. -/
def decimalToIntHalfUp : DecimalVal → Except String Int
  | DecimalVal.nan => Except.error "InvalidOperation"
  | DecimalVal.infty _ => Except.error "InvalidOperation"
  | DecimalVal.finite m e =>
    let v : Int :=
      if 0 ≤ e then m * (10 : Int) ^ e.toNat
      else
        let d := (10 : Nat) ^ (-e).toNat
        let q := halfUpDivNat m.natAbs d
        if m < 0 then -(q : Int) else (q : Int)
    if v.natAbs < 10 ^ 28 then Except.ok v else Except.error "InvalidOperation"

/-! ### Row-level parsing helpers (`services.py`) -/

/-- `services._clean_str`: trim, and treat the empty string or any value
starting (case-insensitively) with `нет данных` as absent. -/
def _clean_str : Option String → Option String
  | none => none
  | some v =>
    let text := pyStrip v
    if text = "" then none
    else if startsWithB (lowerStr text) "нет данных" then none
    else some text

/-- `services._parse_money`: clean, drop `₽`, spaces and no-break spaces,
turn `,` into `.`, construct a `Decimal` (failure caught, `none`), then
quantize/convert — whose exceptions are NOT caught by the source and are
surfaced here as `Except.error`. -/
def _parse_money (value : Option String) : Except String (Option Int) :=
  match _clean_str value with
  | none => Except.ok none
  | some text =>
    let cleaned : String :=
      ⟨(text.data.filter (fun c => c != '₽' && c != ' ' && c != '\xa0')).map
        (fun c => if c == ',' then '.' else c)⟩
    match decimalOfString cleaned with
    | none => Except.ok none
    | some d =>
      match decimalToIntHalfUp d with
      | Except.ok n => Except.ok (some n)
      | Except.error e => Except.error e

/-- `services._parse_bool`: clean, lower, then the fixed yes/no vocabulary;
anything else is `none` (unknown). -/
def _parse_bool (value : Option String) : Option Bool :=
  match _clean_str value with
  | none => none
  | some text =>
    let lowered := lowerStr text
    if lowered = "да" ∨ lowered = "yes" then some true
    else if lowered = "нет" ∨ lowered = "no" then some false
    else none

/-! ### Data model: normalized rows with accreditation attachment -/

/-- The accreditation object a caller attaches to an in-memory row (the
`models.AccreditationStatus` instance as seen by the filter and stats
engines; only `status` is ever read there). -/
structure Accred where
  status : String
deriving DecidableEq

/-- A normalized dataset row (the output shape of
`services._normalize_row`), with the transient `accreditation` attachment
added by the caller. -/
structure Row where
  full_name : String := ""
  short_name : String := ""
  inn : String := ""
  registered_at : Option String := none
  ceo : String := ""
  okved : Option String := none
  revenue : Option Int := none
  expenses : Option Int := none
  taxes : Option Int := none
  tax_year : Option Int := none
  staff : Option Int := none
  staff_year : Option Int := none
  uses_usn : Option Bool := none
  msme_at : Option String := none
  financial_result : Option Int := none
  accreditation : Option Accred := none
deriving DecidableEq

/-! ### Stats and bounds engine -/

/-- Per-field bounds value object (`services.DatasetBounds`). -/
structure DatasetBounds where
  revenue : Option Int × Option Int
  expenses : Option Int × Option Int
  taxes : Option Int × Option Int
  staff : Option Int × Option Int
deriving DecidableEq

/-- The non-null values of one field, in row order. -/
def fieldValues (f : Row → Option Int) (rows : List Row) : List Int :=
  rows.filterMap f

/-- `field_bounds` inside `services.calculate_bounds`: `(min, max)` over
the non-null values, `(None, None)` when there are none. -/
def field_bounds (f : Row → Option Int) (rows : List Row) : Option Int × Option Int :=
  ((fieldValues f rows).min?, (fieldValues f rows).max?)

/-- `services.calculate_bounds`. -/
def calculate_bounds (rows : List Row) : DatasetBounds :=
  { revenue := field_bounds (fun r => r.revenue) rows
    expenses := field_bounds (fun r => r.expenses) rows
    taxes := field_bounds (fun r => r.taxes) rows
    staff := field_bounds (fun r => r.staff) rows }

/-- `total` inside `calculate_stats`: sum over non-null values, `None`
when there are none. -/
def totalOf (f : Row → Option Int) (rows : List Row) : Option Int :=
  match fieldValues f rows with
  | [] => none
  | vs => some vs.sum

/-- `average` inside `calculate_stats` (Python float division, modelled
exactly in `ℚ`). -/
def averageOf (f : Row → Option Int) (rows : List Row) : Option Rat :=
  match fieldValues f rows with
  | [] => none
  | vs => some ((vs.sum : Rat) / (vs.length : Rat))

/-- `share` inside `calculate_stats`: `matched * 100 / len(rows)`,
`None` on the empty dataset. -/
def shareOf (p : Row → Bool) (rows : List Row) : Option Rat :=
  if rows.isEmpty then none
  else some (((rows.countP p : Rat) * 100) / (rows.length : Rat))

/-- The accreditation test in `calculate_stats`'s loop body: an attached
accreditation whose status text contains `действ` case-insensitively.
(The attachment is modelled in its object shape; the dict shape of the
duck-typed Python code reads the same `status` key.) -/
def rowHasActive (r : Row) : Bool :=
  match r.accreditation with
  | none => false
  | some a => containsSub (lowerStr a.status) "действ"

/-- The `for row in rows` loop of `calculate_stats`: it skips any row
whose revenue is null (`continue`), tracks the first row of maximum
revenue (carried with its revenue value), and counts `rowHasActive` rows
— only among the rows that survived the revenue skip, exactly as the
source does. -/
def statsLoop : List Row → Option (Row × Int) → Nat → Option (Row × Int) × Nat
  | [], best, acc => (best, acc)
  | r :: rs, best, acc =>
    match r.revenue with
    | none => statsLoop rs best acc
    | some rev =>
      let best2 :=
        match best with
        | none => some (r, rev)
        | some b => if rev > b.2 then some (r, rev) else some b
      let acc2 := if rowHasActive r then acc + 1 else acc
      statsLoop rs best2 acc2

/-- Result value object of `services.calculate_stats`. -/
structure Stats where
  count : Nat
  total_revenue : Option Int
  total_expenses : Option Int
  total_taxes : Option Int
  avg_staff : Option Rat
  usn_share : Option Rat
  top_company : Option Row
  accredited : Nat
deriving DecidableEq

/-- `services.calculate_stats`. -/
def calculate_stats (rows : List Row) : Stats :=
  let loop := statsLoop rows none 0
  { count := rows.length
    total_revenue := totalOf (fun r => r.revenue) rows
    total_expenses := totalOf (fun r => r.expenses) rows
    total_taxes := totalOf (fun r => r.taxes) rows
    avg_staff := averageOf (fun r => r.staff) rows
    usn_share := shareOf (fun r => r.uses_usn == some true) rows
    top_company := loop.1.map Prod.fst
    accredited := loop.2 }

/-! ### Filter engine -/

/-- Filter specification (`filters` dict built by
`services.parse_filter_payload`); absence of a predicate is `none`. -/
structure Filters where
  search : Option String := none
  okved : Option String := none
  uses_usn : Option Bool := none
  is_accredited : Option Bool := none
  min_revenue : Option Int := none
  max_revenue : Option Int := none
  min_taxes : Option Int := none
  min_staff : Option Int := none
  tax_year : Option Int := none
  staff_year : Option Int := none
deriving DecidableEq

/-- The search haystack of `apply_filters`: space-joined non-empty parts
of full name, short name, CEO and OKVED (an absent OKVED contributes
nothing, like Python `filter(None, ...)`). -/
def searchHaystack (r : Row) : String :=
  String.intercalate " "
    (([r.full_name, r.short_name, r.ceo, r.okved.getD ""]).filter (fun s => s != ""))

/-- Search predicate: Python `if search:` is a truthiness test, so an
empty search string imposes no constraint. -/
def checkSearch (q : Option String) (r : Row) : Bool :=
  match q with
  | none => true
  | some s =>
    if s = "" then true
    else containsSub (lowerStr (searchHaystack r)) (lowerStr s)

/-- OKVED predicate (`if okved and row.get('okved') != okved`). -/
def checkOkved (q : Option String) (r : Row) : Bool :=
  match q with
  | none => true
  | some o => if o = "" then true else r.okved == some o

/-- USN predicate (`uses_usn is not None and row.get('uses_usn') != uses_usn`). -/
def checkUsn (q : Option Bool) (r : Row) : Bool :=
  match q with
  | none => true
  | some b => r.uses_usn == some b

/-- `is_company_accredited` inside `apply_filters`: an attachment exists
and its status equals exactly `Действует`. -/
def isCompanyAccredited (r : Row) : Bool :=
  match r.accreditation with
  | none => false
  | some a => a.status == "Действует"

/-- Accreditation predicate (`is_accredited != is_company_accredited`). -/
def checkAccredited (q : Option Bool) (r : Row) : Bool :=
  match q with
  | none => true
  | some b => b == isCompanyAccredited r

/-- Inclusive lower bound on revenue; null revenue fails the bound. -/
def checkMinRevenue (q : Option Int) (r : Row) : Bool :=
  match q with
  | none => true
  | some m => match r.revenue with | none => false | some v => decide (m ≤ v)

/-- Inclusive upper bound on revenue; null revenue fails the bound. -/
def checkMaxRevenue (q : Option Int) (r : Row) : Bool :=
  match q with
  | none => true
  | some m => match r.revenue with | none => false | some v => decide (v ≤ m)

/-- Inclusive lower bound on taxes; null fails the bound. -/
def checkMinTaxes (q : Option Int) (r : Row) : Bool :=
  match q with
  | none => true
  | some m => match r.taxes with | none => false | some v => decide (m ≤ v)

/-- Inclusive lower bound on staff; null fails the bound. -/
def checkMinStaff (q : Option Int) (r : Row) : Bool :=
  match q with
  | none => true
  | some m => match r.staff with | none => false | some v => decide (m ≤ v)

/-- Exact tax-year match; null fails the constraint. -/
def checkTaxYear (q : Option Int) (r : Row) : Bool :=
  match q with
  | none => true
  | some y => r.tax_year == some y

/-- Exact staff-year match; null fails the constraint. -/
def checkStaffYear (q : Option Int) (r : Row) : Bool :=
  match q with
  | none => true
  | some y => r.staff_year == some y

/-- Conjunction of all predicates, in the order the source tests them. -/
def rowMatches (f : Filters) (r : Row) : Bool :=
  checkSearch f.search r && checkOkved f.okved r && checkUsn f.uses_usn r &&
  checkAccredited f.is_accredited r && checkMinRevenue f.min_revenue r &&
  checkMaxRevenue f.max_revenue r && checkMinTaxes f.min_taxes r &&
  checkMinStaff f.min_staff r && checkTaxYear f.tax_year r &&
  checkStaffYear f.staff_year r

/-- `services.apply_filters`: the ordered subsequence of rows passing
every set predicate (the source's loop of `continue`s). -/
def apply_filters (rows : List Row) (f : Filters) : List Row :=
  rows.filter (rowMatches f)

/-! ### Query-parameter payload parsing -/

/-- A request's query parameters: `QueryDict.get` semantics. -/
def QueryParams := String → Option String

/-- `parse_int_param` inside `services.parse_filter_payload`: missing or
empty value is `None`; otherwise Python `int()`, `ValueError` → `None`. -/
def parse_int_param (qp : QueryParams) (name : String) : Option Int :=
  match qp name with
  | none => none
  | some v => if v = "" then none else pyParseInt v

/-- `parse_bool_param` inside `services.parse_filter_payload`. -/
def parse_bool_param (qp : QueryParams) (name : String) : Option Bool :=
  match qp name with
  | none => none
  | some v =>
    if v = "" then none
    else if lowerStr v = "yes" then some true
    else if lowerStr v = "no" then some false
    else none

/-- `services.parse_filter_payload`. -/
def parse_filter_payload (qp : QueryParams) : Filters :=
  { search :=
      (let s := pyStrip ((qp "search").getD "")
       if s = "" then none else some s)
    okved :=
      (match qp "okved" with
       | none => none
       | some v => if v = "" then none else some v)
    uses_usn := parse_bool_param qp "uses_usn"
    is_accredited := parse_bool_param qp "is_accredited"
    min_revenue := parse_int_param qp "min_revenue"
    max_revenue := parse_int_param qp "max_revenue"
    min_taxes := parse_int_param qp "min_taxes"
    min_staff := parse_int_param qp "min_staff"
    tax_year := parse_int_param qp "tax_year"
    staff_year := parse_int_param qp "staff_year" }

/-! ### Accreditation synchronization -/

/-- `attributeValues` of one registry item; a missing key is `none`. -/
structure Attrs where
  Status : Option String := none
  Name_Organization : Option String := none
  Name_INN : Option String := none
  Number_Decision : Option String := none
  Date_Decision : Option String := none
  Date_record : Option String := none
deriving DecidableEq

/-- One item returned by the registry lookup
(`fetch_accreditation_entry` returns `items[0]`, or `{}` when empty —
the empty dict is modelled as `none` at the use site). -/
structure Entry where
  attributeValues : Attrs := {}
deriving DecidableEq

/-- A calendar date as produced by `datetime.strptime(v, %Y-%m-%d).date()`. -/
structure PyDate where
  year : Nat
  month : Nat
  day : Nat
deriving DecidableEq

/-- Days per month, with the Gregorian leap rule (`strptime` validates
real dates). -/
def daysInMonth (y m : Nat) : Nat :=
  if m = 2 then (if (y % 4 = 0 ∧ y % 100 ≠ 0) ∨ y % 400 = 0 then 29 else 28)
  else if m = 4 ∨ m = 6 ∨ m = 9 ∨ m = 11 then 30
  else 31

/-- `services._parse_api_date`: parse `%Y-%m-%d` (up to 4-digit year,
1-2 digit month/day, real-date validation); missing value or
`ValueError` → `None`. -/
def _parse_api_date (value : Option String) : Option PyDate :=
  match value with
  | none => none
  | some v =>
    if v = "" then none
    else
      match v.splitOn "-" with
      | [ys, ms, ds] =>
        if ys ≠ "" ∧ ys.length ≤ 4 ∧ ys.data.all Char.isDigit ∧
           ms ≠ "" ∧ ms.length ≤ 2 ∧ ms.data.all Char.isDigit ∧
           ds ≠ "" ∧ ds.length ≤ 2 ∧ ds.data.all Char.isDigit then
          let y := natOfDigits ys.data
          let m := natOfDigits ms.data
          let d := natOfDigits ds.data
          if 1 ≤ m ∧ m ≤ 12 ∧ 1 ≤ d ∧ d ≤ daysInMonth y m then
            some { year := y, month := m, day := d }
          else none
        else none
      | _ => none

/-- A persisted `models.AccreditationStatus` row.  `checked_at` is an
abstract timestamp (`timezone.now()` of the sync run); `raw_payload` is
`none` for the `{}` stored on a "no registry record" outcome. -/
structure DBRec where
  inn : String
  name : String
  status : String
  decision_number : String
  decision_date : Option PyDate
  registry_record_date : Option PyDate
  raw_payload : Option Entry
  checked_at : Nat
deriving DecidableEq

/-- Django `update_or_create(inn=..., defaults=...)` on a table with a
unique `inn` column: replace the matching row if one exists (the defaults
cover every non-key field), otherwise insert a new row. -/
def update_or_create : List DBRec → DBRec → List DBRec
  | [], q => [q]
  | r :: rs, q => if r.inn = q.inn then q :: rs else r :: update_or_create rs q

/-- One per-identifier element of the list `sync_accreditation_statuses`
returns; dict keys absent in the source map to `none` defaults. -/
structure Outcome where
  inn : String
  success : Bool
  error : Option String := none
  status : Option String := none
deriving DecidableEq

/-- Python `a or b` on an optional string (`None` and `''` are falsy). -/
def pyOr (a : Option String) (b : String) : String :=
  match a with
  | none => b
  | some s => if s = "" then b else s

/-- The row `sync_accreditation_statuses` persists for one identifier at
timestamp `now`: the "no registry record" row for an empty fetch result,
otherwise the field extraction from the entry's `attributeValues`. -/
def recFor (inn : String) (now : Nat) : Option Entry → DBRec
  | none =>
    { inn := inn, name := inn, status := "Нет записи в реестре",
      decision_number := "", decision_date := none,
      registry_record_date := none, raw_payload := none, checked_at := now }
  | some e =>
    { inn := inn
      name := pyOr e.attributeValues.Name_Organization (pyOr e.attributeValues.Name_INN inn)
      status := e.attributeValues.Status.getD "Неизвестно"
      decision_number := e.attributeValues.Number_Decision.getD ""
      decision_date := _parse_api_date e.attributeValues.Date_Decision
      registry_record_date := _parse_api_date e.attributeValues.Date_record
      raw_payload := some e
      checked_at := now }

/-- The outcome dict appended for one identifier on the two success
paths. -/
def outcomeOk (inn : String) : Option Entry → Outcome
  | none => { inn := inn, success := true, status := some "Нет записи в реестре" }
  | some e => { inn := inn, success := true,
                status := some (e.attributeValues.Status.getD "Неизвестно") }

/-- One iteration of the sync loop: a transport error yields a failure
outcome and leaves the store untouched; a fetch result upserts `recFor`
and yields a success outcome. -/
def syncOne (fetch : String → Except String (Option Entry)) (now : Nat)
    (db : List DBRec) (inn : String) : Outcome × List DBRec :=
  match fetch inn with
  | Except.error e => ({ inn := inn, success := false, error := some e }, db)
  | Except.ok ent => (outcomeOk inn ent, update_or_create db (recFor inn now ent))

/-- The `for inn in unique_inns` loop, threading the persistent store. -/
def syncLoop (fetch : String → Except String (Option Entry)) (now : Nat) :
    List String → List DBRec → List Outcome × List DBRec
  | [], db => ([], db)
  | i :: rest, db =>
    let step := syncOne fetch now db i
    let next := syncLoop fetch now rest step.2
    (step.1 :: next.1, next.2)

/-- Code-point lexicographic `<` on character lists (Python string
comparison). -/
def strLtB : List Char → List Char → Bool
  | [], [] => false
  | [], _ :: _ => true
  | _ :: _, [] => false
  | x :: xs, y :: ys =>
    if x.toNat < y.toNat then true
    else if y.toNat < x.toNat then false
    else strLtB xs ys

/-- Non-strict code-point order on strings. -/
def strLeB (s t : String) : Bool := ! strLtB t.data s.data

/-- Insert into a `strLeB`-sorted list. -/
def insertSorted (s : String) : List String → List String
  | [] => [s]
  | t :: ts => if strLeB s t then s :: t :: ts else t :: insertSorted s ts

/-- Ascending insertion sort by code-point order (Python `sorted` on a
set of strings produces exactly this sorted sequence). -/
def sortStrings : List String → List String
  | [] => []
  | s :: ss => insertSorted s (sortStrings ss)

/-- `sorted({inn.strip() for inn in inns if inn})`. -/
def uniqueSortedInns (inns : List String) : List String :=
  sortStrings (((inns.filter (fun s => s != "")).map pyStrip).dedup)

/-- `services.sync_accreditation_statuses`, with the HTTP fetch
(`fetch_accreditation_entry` plus its transport) abstracted as a function
to `Except` and `timezone.now()` of the run as `now`. -/
def sync_accreditation_statuses (fetch : String → Except String (Option Entry))
    (now : Nat) (db : List DBRec) (inns : List String) :
    List Outcome × List DBRec :=
  syncLoop fetch now (uniqueSortedInns inns) db

/-! ## Theorems -/

/-- Claim C4: `apply_filters` with the empty filter specification (every
predicate absent) returns exactly the input records, unchanged and in the
same order. -/
theorem apply_filters_empty_identity (rows : List Row) :
    apply_filters rows {} = rows := by
  refine List.filter_eq_self.mpr ?_
  intro r _
  rfl

/-- Witness for C4 at a concrete dataset. -/
theorem apply_filters_empty_identity_witness :
    apply_filters [{ inn := "1", revenue := some 7 }, { inn := "2" }] {} =
      [{ inn := "1", revenue := some 7 }, { inn := "2" }] :=
  apply_filters_empty_identity [{ inn := "1", revenue := some 7 }, { inn := "2" }]

/-- Claim C8: `calculate_bounds` on the empty sequence yields
`(None, None)` for each field, and `calculate_stats` on the empty
sequence yields count 0 with null totals, null average staff and null
USN share; both are total functions, so neither raises. -/
theorem bounds_stats_empty :
    calculate_bounds [] =
      { revenue := (none, none), expenses := (none, none),
        taxes := (none, none), staff := (none, none) }
    ∧ calculate_stats [] =
      { count := 0, total_revenue := none, total_expenses := none,
        total_taxes := none, avg_staff := none, usn_share := none,
        top_company := none, accredited := 0 } :=
  ⟨rfl, rfl⟩

/-- Accumulator shape of the stats loop: the accredited counter counts
exactly the rows with non-null revenue that pass `rowHasActive`. -/
theorem statsLoop_acc (rows : List Row) : ∀ best acc,
    (statsLoop rows best acc).2 =
      acc + (rows.filter (fun r => r.revenue.isSome && rowHasActive r)).length := by
  induction rows with
  | nil => intro best acc; simp [statsLoop]
  | cons r rs ih =>
    intro best acc
    cases hr : r.revenue with
    | none => simp [statsLoop, hr, ih]
    | some rev =>
      by_cases ha : rowHasActive r
      · simp [statsLoop, hr, ha, ih]
        omega
      · simp [statsLoop, hr, ha, ih]

/-- Claim C1 counterexample: a record with null revenue and an attached
accreditation status containing `действ` is NOT counted by
`calculate_stats` — the loop `continue`s on null revenue before the
accreditation check — refuting the claim's "regardless of whether the
record's revenue is null". -/
theorem stats_accredited_claim_false :
    ¬ ((calculate_stats [{ accreditation := some { status := "Действует" } }]).accredited
        = (([{ accreditation := some { status := "Действует" } }] : List Row).filter
            rowHasActive).length) := by
  decide

/-- Claim C1 as amended: the `accredited` field of `stats(records)`
equals the number of records with NON-NULL revenue whose attached
accreditation status text contains the substring `действ`
case-insensitively. -/
theorem stats_accredited_amended (rows : List Row) :
    (calculate_stats rows).accredited =
      (rows.filter (fun r => r.revenue.isSome && rowHasActive r)).length := by
  have h := statsLoop_acc rows none 0
  simpa [calculate_stats] using h

/-- Claim C6 (code bug): `_parse_money` strips the currency sign, spaces
and no-break spaces, substitutes the comma, and rounds half-up
(`1234,50 ₽` → 1235, `1234,49` → 1234), and a failed `Decimal` parse
yields null — but the parser is NOT raise-free: `quantize`/`int` sit
outside the `try`, so the well-formed decimal string `Infinity` raises
an uncaught `InvalidOperation` instead of yielding null. -/
theorem parse_money_rounds_but_raises :
    _parse_money (some "Infinity") = Except.error "InvalidOperation"
    ∧ _parse_money (some "1234,50 ₽") = Except.ok (some 1235)
    ∧ _parse_money (some "1234,49") = Except.ok (some 1234)
    ∧ _parse_money (some "мусор") = Except.ok none :=
  ⟨rfl, rfl, rfl, rfl⟩

/-- Claim C7: with only `is_accredited` set to true, a record matches if
and only if it carries an attached accreditation whose status equals
exactly `Действует`; a record without an attachment never matches
`is_accredited = true` and always matches `is_accredited = false`. -/
theorem apply_filters_is_accredited (r : Row) :
    (apply_filters [r] { is_accredited := some true } = [r] ↔
      ∃ a, r.accreditation = some a ∧ a.status = "Действует")
    ∧ (r.accreditation = none →
        apply_filters [r] { is_accredited := some true } = [] ∧
        apply_filters [r] { is_accredited := some false } = [r]) := by
  have hm : ∀ b : Bool, rowMatches { is_accredited := some b } r = (b == isCompanyAccredited r) := by
    intro b
    simp [rowMatches, checkSearch, checkOkved, checkUsn, checkAccredited,
      checkMinRevenue, checkMaxRevenue, checkMinTaxes, checkMinStaff,
      checkTaxYear, checkStaffYear]
  have happ : ∀ f : Filters, apply_filters [r] f = if rowMatches f r then [r] else [] := by
    intro f
    cases h : rowMatches f r <;> simp [apply_filters, List.filter, h]
  constructor
  · rw [happ, hm]
    cases hacc : r.accreditation with
    | none =>
      simp [isCompanyAccredited, hacc]
    | some a =>
      by_cases hs : a.status = "Действует"
      · simp [isCompanyAccredited, hacc, hs]
      · simp [isCompanyAccredited, hacc, hs]
  · intro hnone
    rw [happ, happ, hm, hm]
    simp [isCompanyAccredited, hnone]

/-- Witness for C7: a record without an attachment, evaluated concretely. -/
theorem apply_filters_is_accredited_witness :
    apply_filters [({ inn := "5" } : Row)] { is_accredited := some true } = [] ∧
    apply_filters [({ inn := "5" } : Row)] { is_accredited := some false } =
      [({ inn := "5" } : Row)] :=
  (apply_filters_is_accredited { inn := "5" }).2 rfl

/-- Filter spec `B` consists of every constraint of `A` plus exactly one
additional constraint (one predicate that is absent in `A` is set in
`B`). -/
def AddsOneConstraint (A B : Filters) : Prop :=
  (A.search = none ∧ ∃ v, B = { A with search := some v }) ∨
  (A.okved = none ∧ ∃ v, B = { A with okved := some v }) ∨
  (A.uses_usn = none ∧ ∃ v, B = { A with uses_usn := some v }) ∨
  (A.is_accredited = none ∧ ∃ v, B = { A with is_accredited := some v }) ∨
  (A.min_revenue = none ∧ ∃ v, B = { A with min_revenue := some v }) ∨
  (A.max_revenue = none ∧ ∃ v, B = { A with max_revenue := some v }) ∨
  (A.min_taxes = none ∧ ∃ v, B = { A with min_taxes := some v }) ∨
  (A.min_staff = none ∧ ∃ v, B = { A with min_staff := some v }) ∨
  (A.tax_year = none ∧ ∃ v, B = { A with tax_year := some v }) ∨
  (A.staff_year = none ∧ ∃ v, B = { A with staff_year := some v })

/-- Pointwise monotonicity of the conjunctive row predicate: whenever
each predicate of `A` is either absent or equal to `B`'s, a row matching
`B` matches `A`. -/
theorem rowMatches_mono (A B : Filters) (r : Row)
    (c1 : A.search = none ∨ A.search = B.search)
    (c2 : A.okved = none ∨ A.okved = B.okved)
    (c3 : A.uses_usn = none ∨ A.uses_usn = B.uses_usn)
    (c4 : A.is_accredited = none ∨ A.is_accredited = B.is_accredited)
    (c5 : A.min_revenue = none ∨ A.min_revenue = B.min_revenue)
    (c6 : A.max_revenue = none ∨ A.max_revenue = B.max_revenue)
    (c7 : A.min_taxes = none ∨ A.min_taxes = B.min_taxes)
    (c8 : A.min_staff = none ∨ A.min_staff = B.min_staff)
    (c9 : A.tax_year = none ∨ A.tax_year = B.tax_year)
    (c10 : A.staff_year = none ∨ A.staff_year = B.staff_year)
    (h : rowMatches B r = true) : rowMatches A r = true := by
  simp only [rowMatches, Bool.and_eq_true, and_assoc] at h ⊢
  obtain ⟨h1, h2, h3, h4, h5, h6, h7, h8, h9, h10⟩ := h
  refine ⟨?_, ?_, ?_, ?_, ?_, ?_, ?_, ?_, ?_, ?_⟩
  · rcases c1 with hc | hc
    · rw [hc]; rfl
    · rw [hc]; exact h1
  · rcases c2 with hc | hc
    · rw [hc]; rfl
    · rw [hc]; exact h2
  · rcases c3 with hc | hc
    · rw [hc]; rfl
    · rw [hc]; exact h3
  · rcases c4 with hc | hc
    · rw [hc]; rfl
    · rw [hc]; exact h4
  · rcases c5 with hc | hc
    · rw [hc]; rfl
    · rw [hc]; exact h5
  · rcases c6 with hc | hc
    · rw [hc]; rfl
    · rw [hc]; exact h6
  · rcases c7 with hc | hc
    · rw [hc]; rfl
    · rw [hc]; exact h7
  · rcases c8 with hc | hc
    · rw [hc]; rfl
    · rw [hc]; exact h8
  · rcases c9 with hc | hc
    · rw [hc]; rfl
    · rw [hc]; exact h9
  · rcases c10 with hc | hc
    · rw [hc]; rfl
    · rw [hc]; exact h10

/-- Claim C5: `apply_filters` is monotone — when spec `B` has every
constraint of spec `A` plus one more, every record returned under `B` is
also returned under `A`. -/
theorem apply_filters_monotone (rows : List Row) (A B : Filters) (r : Row)
    (hAB : AddsOneConstraint A B) (hr : r ∈ apply_filters rows B) :
    r ∈ apply_filters rows A := by
  rw [apply_filters, List.mem_filter] at hr ⊢
  refine ⟨hr.1, ?_⟩
  have h := hr.2
  rcases hAB with ⟨hn, v, rfl⟩ | ⟨hn, v, rfl⟩ | ⟨hn, v, rfl⟩ | ⟨hn, v, rfl⟩ |
    ⟨hn, v, rfl⟩ | ⟨hn, v, rfl⟩ | ⟨hn, v, rfl⟩ | ⟨hn, v, rfl⟩ | ⟨hn, v, rfl⟩ | ⟨hn, v, rfl⟩
  · exact rowMatches_mono A { A with search := some v } r (Or.inl hn) (Or.inr rfl) (Or.inr rfl) (Or.inr rfl)
      (Or.inr rfl) (Or.inr rfl) (Or.inr rfl) (Or.inr rfl) (Or.inr rfl) (Or.inr rfl) h
  · exact rowMatches_mono A { A with okved := some v } r (Or.inr rfl) (Or.inl hn) (Or.inr rfl) (Or.inr rfl)
      (Or.inr rfl) (Or.inr rfl) (Or.inr rfl) (Or.inr rfl) (Or.inr rfl) (Or.inr rfl) h
  · exact rowMatches_mono A { A with uses_usn := some v } r (Or.inr rfl) (Or.inr rfl) (Or.inl hn) (Or.inr rfl)
      (Or.inr rfl) (Or.inr rfl) (Or.inr rfl) (Or.inr rfl) (Or.inr rfl) (Or.inr rfl) h
  · exact rowMatches_mono A { A with is_accredited := some v } r (Or.inr rfl) (Or.inr rfl) (Or.inr rfl) (Or.inl hn)
      (Or.inr rfl) (Or.inr rfl) (Or.inr rfl) (Or.inr rfl) (Or.inr rfl) (Or.inr rfl) h
  · exact rowMatches_mono A { A with min_revenue := some v } r (Or.inr rfl) (Or.inr rfl) (Or.inr rfl) (Or.inr rfl)
      (Or.inl hn) (Or.inr rfl) (Or.inr rfl) (Or.inr rfl) (Or.inr rfl) (Or.inr rfl) h
  · exact rowMatches_mono A { A with max_revenue := some v } r (Or.inr rfl) (Or.inr rfl) (Or.inr rfl) (Or.inr rfl)
      (Or.inr rfl) (Or.inl hn) (Or.inr rfl) (Or.inr rfl) (Or.inr rfl) (Or.inr rfl) h
  · exact rowMatches_mono A { A with min_taxes := some v } r (Or.inr rfl) (Or.inr rfl) (Or.inr rfl) (Or.inr rfl)
      (Or.inr rfl) (Or.inr rfl) (Or.inl hn) (Or.inr rfl) (Or.inr rfl) (Or.inr rfl) h
  · exact rowMatches_mono A { A with min_staff := some v } r (Or.inr rfl) (Or.inr rfl) (Or.inr rfl) (Or.inr rfl)
      (Or.inr rfl) (Or.inr rfl) (Or.inr rfl) (Or.inl hn) (Or.inr rfl) (Or.inr rfl) h
  · exact rowMatches_mono A { A with tax_year := some v } r (Or.inr rfl) (Or.inr rfl) (Or.inr rfl) (Or.inr rfl)
      (Or.inr rfl) (Or.inr rfl) (Or.inr rfl) (Or.inr rfl) (Or.inl hn) (Or.inr rfl) h
  · exact rowMatches_mono A { A with staff_year := some v } r (Or.inr rfl) (Or.inr rfl) (Or.inr rfl) (Or.inr rfl)
      (Or.inr rfl) (Or.inr rfl) (Or.inr rfl) (Or.inr rfl) (Or.inr rfl) (Or.inl hn) h

/-- Witness for C5: `B = {min_staff := 1}` adds one constraint to the
empty spec; the matching record stays in the larger result. -/
theorem apply_filters_monotone_witness :
    ({ inn := "9", staff := some 2 } : Row) ∈
      apply_filters [{ inn := "9", staff := some 2 }] ({} : Filters) :=
  apply_filters_monotone [{ inn := "9", staff := some 2 }] {} { min_staff := some 1 }
    { inn := "9", staff := some 2 }
    (Or.inr (Or.inr (Or.inr (Or.inr (Or.inr (Or.inr (Or.inr (Or.inl ⟨rfl, 1, rfl⟩))))))))
    (by decide)

/-- Claim C9: boolean parsing is total over its vocabulary — after
cleaning, a case-insensitive `Да`/`yes` yields true and `Нет`/`no`
yields false, and every other input (empty and whitespace-only included)
yields null; the function is total, so it never raises. -/
theorem parse_bool_vocabulary (s : String) :
    (_parse_bool (some s) = some true ↔
      lowerStr (pyStrip s) = "да" ∨ lowerStr (pyStrip s) = "yes")
    ∧ (_parse_bool (some s) = some false ↔
      lowerStr (pyStrip s) = "нет" ∨ lowerStr (pyStrip s) = "no") := by
  by_cases h0 : pyStrip s = ""
  · rw [show _parse_bool (some s) = none by simp [_parse_bool, _clean_str, h0]]
    rw [h0]
    constructor <;> constructor <;> intro h <;> exact absurd h (by decide)
  · by_cases h1 : startsWithB (lowerStr (pyStrip s)) "нет данных" = true
    · rw [show _parse_bool (some s) = none by simp [_parse_bool, _clean_str, h0, h1]]
      constructor <;> constructor <;> intro h
      · exact absurd h (by decide)
      · rcases h with h | h <;> (rw [h] at h1; exact absurd h1 (by decide))
      · exact absurd h (by decide)
      · rcases h with h | h <;> (rw [h] at h1; exact absurd h1 (by decide))
    · have hb : _parse_bool (some s) =
          (if lowerStr (pyStrip s) = "да" ∨ lowerStr (pyStrip s) = "yes" then some true
           else if lowerStr (pyStrip s) = "нет" ∨ lowerStr (pyStrip s) = "no" then some false
           else none) := by
        simp [_parse_bool, _clean_str, h0, h1]
      rw [hb]
      by_cases h2 : lowerStr (pyStrip s) = "да" ∨ lowerStr (pyStrip s) = "yes"
      · constructor
        · simp [h2]
        · simp [h2]
          constructor <;> intro hw <;> rcases h2 with hv | hv <;>
            (rw [hv] at hw; exact absurd hw (by decide))
      · by_cases h3 : lowerStr (pyStrip s) = "нет" ∨ lowerStr (pyStrip s) = "no"
        · constructor
          · simp [h2, h3]
          · simp [h2, h3]
        · constructor
          · simp [h2, h3]
          · simp [h2, h3]

/-- Witness for C9 at a concrete mixed-case input. -/
theorem parse_bool_vocabulary_witness :
    _parse_bool (some " ДА ") = some true :=
  (parse_bool_vocabulary " ДА ").1.mpr (Or.inl (by decide))

/-- A numeric query parameter that is missing, empty, or not a base-10
integer. -/
def IntParamAbsent (qp : QueryParams) (name : String) : Prop :=
  qp name = none ∨ qp name = some "" ∨ ∀ v, qp name = some v → pyParseInt v = none

/-- Such a parameter parses to `none` (no constraint), never an error. -/
theorem parse_int_param_absent (qp : QueryParams) (name : String)
    (h : IntParamAbsent qp name) : parse_int_param qp name = none := by
  rcases h with h | h | h
  · simp [parse_int_param, h]
  · simp [parse_int_param, h]
  · cases hq : qp name with
    | none => simp [parse_int_param, hq]
    | some v =>
      by_cases h0 : v = ""
      · simp [parse_int_param, hq, h0]
      · simp [parse_int_param, hq, h0, h v hq]

/-- A boolean query parameter yields true exactly for a value lowering
to `yes`. -/
theorem parse_bool_param_true_iff (qp : QueryParams) (name : String) :
    parse_bool_param qp name = some true ↔
      ∃ v, qp name = some v ∧ lowerStr v = "yes" := by
  cases hq : qp name with
  | none => simp [parse_bool_param, hq]
  | some v =>
    by_cases h0 : v = ""
    · have hnone : parse_bool_param qp name = none := by
        simp [parse_bool_param, hq, h0]
      rw [hnone]
      subst h0
      constructor
      · intro h; cases h
      · rintro ⟨v2, hv2, hl⟩
        rw [Option.some.injEq] at hv2
        subst hv2
        exact absurd hl (by decide)
    · by_cases h1 : lowerStr v = "yes"
      · simp [parse_bool_param, hq, h0, h1]
      · by_cases h2 : lowerStr v = "no"
        · simp [parse_bool_param, hq, h0, h1, h2]
        · simp [parse_bool_param, hq, h0, h1, h2]

/-- A boolean query parameter yields false exactly for a value lowering
to `no`. -/
theorem parse_bool_param_false_iff (qp : QueryParams) (name : String) :
    parse_bool_param qp name = some false ↔
      ∃ v, qp name = some v ∧ lowerStr v = "no" := by
  cases hq : qp name with
  | none => simp [parse_bool_param, hq]
  | some v =>
    by_cases h0 : v = ""
    · have hnone : parse_bool_param qp name = none := by
        simp [parse_bool_param, hq, h0]
      rw [hnone]
      subst h0
      constructor
      · intro h; cases h
      · rintro ⟨v2, hv2, hl⟩
        rw [Option.some.injEq] at hv2
        subst hv2
        exact absurd hl (by decide)
    · by_cases h1 : lowerStr v = "yes"
      · simp [parse_bool_param, hq, h0, h1]
      · by_cases h2 : lowerStr v = "no"
        · simp [parse_bool_param, hq, h0, h1, h2]
        · simp [parse_bool_param, hq, h0, h1, h2]

/-- Claim C10: `parse_filter_payload` never raises — every numeric
parameter that is missing, empty or not a base-10 integer becomes null
(no constraint); a boolean parameter is true only for a case-insensitive
`yes` and false only for a case-insensitive `no`, null otherwise; and a
missing or whitespace-only search becomes null. -/
theorem parse_filter_payload_lenient (qp : QueryParams) :
    (IntParamAbsent qp "min_revenue" → (parse_filter_payload qp).min_revenue = none)
    ∧ (IntParamAbsent qp "max_revenue" → (parse_filter_payload qp).max_revenue = none)
    ∧ (IntParamAbsent qp "min_taxes" → (parse_filter_payload qp).min_taxes = none)
    ∧ (IntParamAbsent qp "min_staff" → (parse_filter_payload qp).min_staff = none)
    ∧ (IntParamAbsent qp "tax_year" → (parse_filter_payload qp).tax_year = none)
    ∧ (IntParamAbsent qp "staff_year" → (parse_filter_payload qp).staff_year = none)
    ∧ ((parse_filter_payload qp).uses_usn = some true ↔
        ∃ v, qp "uses_usn" = some v ∧ lowerStr v = "yes")
    ∧ ((parse_filter_payload qp).uses_usn = some false ↔
        ∃ v, qp "uses_usn" = some v ∧ lowerStr v = "no")
    ∧ ((parse_filter_payload qp).is_accredited = some true ↔
        ∃ v, qp "is_accredited" = some v ∧ lowerStr v = "yes")
    ∧ ((parse_filter_payload qp).is_accredited = some false ↔
        ∃ v, qp "is_accredited" = some v ∧ lowerStr v = "no")
    ∧ ((qp "search" = none ∨ ∀ v, qp "search" = some v → pyStrip v = "") →
        (parse_filter_payload qp).search = none) := by
  refine ⟨parse_int_param_absent qp "min_revenue",
    parse_int_param_absent qp "max_revenue",
    parse_int_param_absent qp "min_taxes",
    parse_int_param_absent qp "min_staff",
    parse_int_param_absent qp "tax_year",
    parse_int_param_absent qp "staff_year",
    parse_bool_param_true_iff qp "uses_usn",
    parse_bool_param_false_iff qp "uses_usn",
    parse_bool_param_true_iff qp "is_accredited",
    parse_bool_param_false_iff qp "is_accredited", ?_⟩
  intro h
  have hps : pyStrip "" = "" := rfl
  rcases h with h | h
  · simp [parse_filter_payload, h, hps]
  · cases hq : qp "search" with
    | none => simp [parse_filter_payload, hq, hps]
    | some v => simp [parse_filter_payload, hq, h v hq]

/-- Witness for C10: a malformed numeric value, an uppercase `YES` and a
whitespace-only search, evaluated concretely. -/
theorem parse_filter_payload_lenient_witness :
    (parse_filter_payload (fun n =>
      if n = "min_revenue" then some "abc"
      else if n = "is_accredited" then some "YES"
      else if n = "search" then some "  " else none)).min_revenue = none
    ∧ (parse_filter_payload (fun n =>
      if n = "min_revenue" then some "abc"
      else if n = "is_accredited" then some "YES"
      else if n = "search" then some "  " else none)).is_accredited = some true
    ∧ (parse_filter_payload (fun n =>
      if n = "min_revenue" then some "abc"
      else if n = "is_accredited" then some "YES"
      else if n = "search" then some "  " else none)).search = none := by
  have h := parse_filter_payload_lenient (fun n =>
    if n = "min_revenue" then some "abc"
    else if n = "is_accredited" then some "YES"
    else if n = "search" then some "  " else none)
  refine ⟨h.1 ?_, ?_, ?_⟩
  · exact Or.inr (Or.inr (by intro v hv; cases hv; decide))
  · exact h.2.2.2.2.2.2.2.2.1.mpr ⟨"YES", rfl, by decide⟩
  · exact h.2.2.2.2.2.2.2.2.2.2 (Or.inr (by intro v hv; cases hv; decide))

/-! ### Order and permutation facts about the identifier sort -/

/-- `strLtB` is asymmetric. -/
theorem strLtB_asymm : ∀ a b : List Char, strLtB a b = true → strLtB b a = false := by
  intro a
  induction a with
  | nil =>
    intro b h
    cases b with
    | nil => simp [strLtB] at h
    | cons c cs => simp [strLtB]
  | cons x xs ih =>
    intro b h
    cases b with
    | nil => simp [strLtB] at h
    | cons y ys =>
      simp only [strLtB] at h ⊢
      by_cases h1 : x.toNat < y.toNat
      · have h2 : ¬ y.toNat < x.toNat := by omega
        simp [h1, h2]
      · by_cases h2 : y.toNat < x.toNat
        · rw [if_neg h1, if_pos h2] at h
          cases h
        · rw [if_neg h1, if_neg h2] at h
          simp only [if_neg h2, if_neg h1]
          exact ih ys h

/-- `strLeB` is total. -/
theorem strLeB_total (s t : String) : strLeB s t = true ∨ strLeB t s = true := by
  unfold strLeB
  by_cases h : strLtB t.data s.data = true
  · right
    simp [strLtB_asymm _ _ h]
  · left
    simp [Bool.not_eq_true] at h
    simp [h]

/-- Inserting into a list keeps the head either the inserted element or
the old head. -/
theorem insertSorted_head (s : String) (l : List String) :
    (insertSorted s l).head? = some s ∨ (insertSorted s l).head? = l.head? := by
  cases l with
  | nil => left; rfl
  | cons t ts =>
    by_cases h : strLeB s t = true
    · left; simp [insertSorted, h]
    · right; simp [insertSorted, h]

/-- Insertion preserves adjacent sortedness. -/
theorem chain'_insertSorted (s : String) : ∀ l : List String,
    List.Chain' (fun a b => strLeB a b = true) l →
    List.Chain' (fun a b => strLeB a b = true) (insertSorted s l)
  | [], _ => by simp [insertSorted]
  | t :: ts, h => by
    by_cases hst : strLeB s t = true
    · rw [show insertSorted s (t :: ts) = s :: t :: ts by simp [insertSorted, hst]]
      exact List.chain'_cons.mpr ⟨hst, h⟩
    · rw [show insertSorted s (t :: ts) = t :: insertSorted s ts by
        simp [insertSorted, hst]]
      have hts : strLeB t s = true := by
        rcases strLeB_total s t with h1 | h1
        · exact absurd h1 hst
        · exact h1
      have hrec := chain'_insertSorted s ts h.tail
      cases hins : insertSorted s ts with
      | nil => simp
      | cons u us =>
        rw [hins] at hrec
        refine List.chain'_cons.mpr ⟨?_, hrec⟩
        rcases insertSorted_head s ts with hh | hh <;> rw [hins] at hh
        · simp only [List.head?_cons, Option.some.injEq] at hh
          rw [hh]
          exact hts
        · cases ts with
          | nil => cases hh
          | cons w ws =>
            simp only [List.head?_cons, Option.some.injEq] at hh
            have hw := (List.chain'_cons.mp h).1
            rw [hh]
            exact hw

/-- The insertion sort produces an adjacent-sorted list. -/
theorem sortStrings_chain' : ∀ l : List String,
    List.Chain' (fun a b => strLeB a b = true) (sortStrings l)
  | [] => List.chain'_nil
  | s :: ss => chain'_insertSorted s (sortStrings ss) (sortStrings_chain' ss)

/-- Insertion yields a permutation of consing. -/
theorem insertSorted_perm (s : String) (l : List String) :
    (insertSorted s l).Perm (s :: l) := by
  induction l with
  | nil => exact List.Perm.refl _
  | cons t ts ih =>
    by_cases h : strLeB s t = true
    · rw [show insertSorted s (t :: ts) = s :: t :: ts by simp [insertSorted, h]]
    · rw [show insertSorted s (t :: ts) = t :: insertSorted s ts by
        simp [insertSorted, h]]
      exact (ih.cons t).trans (List.Perm.swap s t ts)

/-- The insertion sort permutes its input. -/
theorem sortStrings_perm : ∀ l : List String, (sortStrings l).Perm l
  | [] => List.Perm.refl _
  | s :: ss => (insertSorted_perm s (sortStrings ss)).trans ((sortStrings_perm ss).cons s)

/-- The deduplicated sorted identifier list has no duplicates. -/
theorem uniqueSortedInns_nodup (inns : List String) :
    (uniqueSortedInns inns).Nodup :=
  ((sortStrings_perm _).nodup_iff).mpr (List.nodup_dedup _)

/-! ### Behaviour of the sync loop -/

/-- The persisted row always carries its identifier. -/
theorem recFor_inn (inn : String) (now : Nat) (ent : Option Entry) :
    (recFor inn now ent).inn = inn := by
  cases ent <;> rfl

/-- The outcome of one iteration carries its identifier. -/
theorem syncOne_inn (fetch : String → Except String (Option Entry)) (now : Nat)
    (db : List DBRec) (inn : String) : (syncOne fetch now db inn).1.inn = inn := by
  cases hf : fetch inn with
  | error e => simp [syncOne, hf]
  | ok ent => cases ent <;> simp [syncOne, hf, outcomeOk]

/-- The loop yields exactly one outcome per processed identifier, in
processing order. -/
theorem syncLoop_map_inn (fetch : String → Except String (Option Entry)) (now : Nat) :
    ∀ (l : List String) (db : List DBRec),
      (syncLoop fetch now l db).1.map Outcome.inn = l := by
  intro l
  induction l with
  | nil => intro db; rfl
  | cons i rest ih =>
    intro db
    simp [syncLoop, syncOne_inn, ih]

/-- A transport-failing identifier in the batch produces exactly the
failure outcome dict. -/
theorem syncLoop_mem_error (fetch : String → Except String (Option Entry)) (now : Nat)
    (a e : String) (hfa : fetch a = Except.error e) :
    ∀ (l : List String) (db : List DBRec), a ∈ l →
      ({ inn := a, success := false, error := some e, status := none } : Outcome) ∈
        (syncLoop fetch now l db).1 := by
  intro l
  induction l with
  | nil => intro db h; cases h
  | cons i rest ih =>
    intro db h
    rcases List.mem_cons.mp h with rfl | h2
    · have hstep : (syncOne fetch now db a).1 =
          { inn := a, success := false, error := some e, status := none } := by
        simp [syncOne, hfa]
      simp only [syncLoop]
      rw [hstep]
      exact List.mem_cons_self _ _
    · simp only [syncLoop]
      exact List.mem_cons_of_mem _ (ih _ h2)

/-- A successfully fetched identifier in the batch produces a success
outcome with some status. -/
theorem syncLoop_mem_ok (fetch : String → Except String (Option Entry)) (now : Nat)
    (b : String) (ent : Option Entry) (hfb : fetch b = Except.ok ent) :
    ∀ (l : List String) (db : List DBRec), b ∈ l →
      ∃ st, ({ inn := b, success := true, error := none, status := some st } : Outcome) ∈
        (syncLoop fetch now l db).1 := by
  intro l
  induction l with
  | nil => intro db h; cases h
  | cons i rest ih =>
    intro db h
    rcases List.mem_cons.mp h with rfl | h2
    · cases ent with
      | none =>
        refine ⟨"Нет записи в реестре", ?_⟩
        have hstep : (syncOne fetch now db b).1 =
            { inn := b, success := true, error := none,
              status := some "Нет записи в реестре" } := by
          simp [syncOne, hfb, outcomeOk]
        simp only [syncLoop]
        rw [hstep]
        exact List.mem_cons_self _ _
      | some en =>
        refine ⟨en.attributeValues.Status.getD "Неизвестно", ?_⟩
        have hstep : (syncOne fetch now db b).1 =
            { inn := b, success := true, error := none,
              status := some (en.attributeValues.Status.getD "Неизвестно") } := by
          simp [syncOne, hfb, outcomeOk]
        simp only [syncLoop]
        rw [hstep]
        exact List.mem_cons_self _ _
    · obtain ⟨st, hmem⟩ := ih ((syncOne fetch now db i).2) h2
      exact ⟨st, by simp only [syncLoop]; exact List.mem_cons_of_mem _ hmem⟩

/-- Upserting a row of another identifier leaves the rows of `a`
untouched. -/
theorem update_or_create_filter_ne (a : String) :
    ∀ (db : List DBRec) (q : DBRec), q.inn ≠ a →
      (update_or_create db q).filter (fun r => r.inn == a) =
        db.filter (fun r => r.inn == a) := by
  intro db
  induction db with
  | nil =>
    intro q hne
    simp [update_or_create, List.filter, beq_eq_false_iff_ne.mpr hne]
  | cons r rs ih =>
    intro q hne
    by_cases hr : r.inn = q.inn
    · have hra : (r.inn == a) = false := by
        simp [hr, hne]
      simp [update_or_create, hr, List.filter, hra, beq_eq_false_iff_ne.mpr hne]
    · simp only [update_or_create, if_neg hr, List.filter_cons]
      rw [ih q hne]

/-- A transport-failing identifier's rows are neither created nor
updated by the whole batch. -/
theorem syncLoop_filter_error (fetch : String → Except String (Option Entry)) (now : Nat)
    (a e : String) (hfa : fetch a = Except.error e) :
    ∀ (l : List String) (db : List DBRec),
      (syncLoop fetch now l db).2.filter (fun r => r.inn == a) =
        db.filter (fun r => r.inn == a) := by
  intro l
  induction l with
  | nil => intro db; rfl
  | cons i rest ih =>
    intro db
    cases hf : fetch i with
    | error e2 =>
      simp only [syncLoop, syncOne, hf]
      exact ih db
    | ok ent =>
      have hne : (recFor i now ent).inn ≠ a := by
        rw [recFor_inn]
        rintro rfl
        rw [hfa] at hf
        cases hf
      simp only [syncLoop, syncOne, hf]
      rw [ih, update_or_create_filter_ne a db (recFor i now ent) hne]

/-- Claim C2: with a transport-failing identifier `a` and a succeeding
identifier `b` in the batch, the sync returns one outcome per
deduplicated identifier, ordered by the sorted deduplicated identifier
list (which is duplicate-free and adjacent-sorted), with the failure
dict `{inn, success := false, error}` for `a` and a success outcome for
`b`; and no persisted record of `a` is created or updated. -/
theorem sync_partial_failure (fetch : String → Except String (Option Entry)) (now : Nat)
    (db : List DBRec) (inns : List String) (a b e : String) (ent : Option Entry)
    (ha : a ∈ uniqueSortedInns inns) (hb : b ∈ uniqueSortedInns inns)
    (hfa : fetch a = Except.error e) (hfb : fetch b = Except.ok ent) :
    ((sync_accreditation_statuses fetch now db inns).1.map Outcome.inn =
        uniqueSortedInns inns)
    ∧ (uniqueSortedInns inns).Nodup
    ∧ List.Chain' (fun s t => strLeB s t = true) (uniqueSortedInns inns)
    ∧ ({ inn := a, success := false, error := some e, status := none } : Outcome) ∈
        (sync_accreditation_statuses fetch now db inns).1
    ∧ (∃ st, ({ inn := b, success := true, error := none, status := some st } : Outcome) ∈
        (sync_accreditation_statuses fetch now db inns).1)
    ∧ (sync_accreditation_statuses fetch now db inns).2.filter (fun r => r.inn == a) =
        db.filter (fun r => r.inn == a) :=
  ⟨syncLoop_map_inn fetch now (uniqueSortedInns inns) db,
   uniqueSortedInns_nodup inns,
   sortStrings_chain' _,
   syncLoop_mem_error fetch now a e hfa (uniqueSortedInns inns) db ha,
   syncLoop_mem_ok fetch now b ent hfb (uniqueSortedInns inns) db hb,
   syncLoop_filter_error fetch now a e hfa (uniqueSortedInns inns) db⟩

/-- A concrete fetch stub: identifier `A` fails transport, everything
else reports an empty registry result. -/
def fetchStub : String → Except String (Option Entry) :=
  fun s => if s = "A" then Except.error "boom" else Except.ok none

/-- Witness for C2 at a concrete batch with a duplicate. -/
theorem sync_partial_failure_witness :
    ((sync_accreditation_statuses fetchStub 0 [] ["B", "A", "B"]).1.map Outcome.inn =
        uniqueSortedInns ["B", "A", "B"])
    ∧ (uniqueSortedInns ["B", "A", "B"]).Nodup
    ∧ List.Chain' (fun s t => strLeB s t = true) (uniqueSortedInns ["B", "A", "B"])
    ∧ ({ inn := "A", success := false, error := some "boom", status := none } : Outcome) ∈
        (sync_accreditation_statuses fetchStub 0 [] ["B", "A", "B"]).1
    ∧ (∃ st, ({ inn := "B", success := true, error := none, status := some st } : Outcome) ∈
        (sync_accreditation_statuses fetchStub 0 [] ["B", "A", "B"]).1)
    ∧ (sync_accreditation_statuses fetchStub 0 [] ["B", "A", "B"]).2.filter
        (fun r => r.inn == "A") =
        ([] : List DBRec).filter (fun r => r.inn == "A") :=
  sync_partial_failure fetchStub 0 [] ["B", "A", "B"] "A" "B" "boom" none
    (by decide) (by decide) rfl rfl

/-- A well-formed single identifier survives dedup-and-sort untouched. -/
theorem uniqueSortedInns_single (inn : String) (h1 : pyStrip inn = inn) (h2 : inn ≠ "") :
    uniqueSortedInns [inn] = [inn] := by
  have hf : ([inn].filter (fun s => s != "")) = [inn] := by
    simp [List.filter_cons, bne_iff_ne, h2]
  have hd : ([inn] : List String).dedup = [inn] := by
    rw [List.dedup_cons_of_not_mem (by simp), List.dedup_nil]
  unfold uniqueSortedInns
  rw [hf]
  simp only [List.map_cons, List.map_nil, h1]
  rw [hd]
  rfl

/-- When at most one row carries the key, upserting leaves exactly the
new row under that key. -/
theorem update_or_create_filter_self (i : String) :
    ∀ (db : List DBRec) (q : DBRec), q.inn = i →
      (db.filter (fun r => r.inn == i)).length ≤ 1 →
      (update_or_create db q).filter (fun r => r.inn == i) = [q] := by
  intro db
  induction db with
  | nil =>
    intro q hqi hlen
    simp [update_or_create, List.filter_cons, hqi]
  | cons r rs ih =>
    intro q hqi hlen
    subst hqi
    by_cases hr : r.inn = q.inn
    · have hb : (r.inn == q.inn) = true := beq_iff_eq.mpr hr
      simp only [List.filter_cons, hb, if_true, List.length_cons] at hlen
      have h0 : rs.filter (fun x => x.inn == q.inn) = [] :=
        List.eq_nil_of_length_eq_zero (by omega)
      simp [update_or_create, hr, List.filter_cons, h0]
    · have hb : (r.inn == q.inn) = false := beq_eq_false_iff_ne.mpr hr
      simp only [List.filter_cons, hb, if_false] at hlen
      simp only [update_or_create, if_neg hr, List.filter_cons, hb, if_false]
      exact ih q rfl hlen

/-- The persisted row for an unchanged fetch result differs between two
runs only in its timestamp. -/
theorem recFor_time_update (inn : String) (t1 t2 : Nat) (ent : Option Entry) :
    recFor inn t2 ent = { recFor inn t1 ent with checked_at := t2 } := by
  cases ent <;> rfl

/-- The persisted row carries the run's timestamp. -/
theorem recFor_checked_at (inn : String) (t : Nat) (ent : Option Entry) :
    (recFor inn t ent).checked_at = t := by
  cases ent <;> rfl

/-- Claim C3: running `sync([inn])` twice with an unchanged external
response leaves exactly one persisted record keyed by `inn` (never a
duplicate), whose `checked_at` is advanced to the second run's timestamp
while every other field keeps its value from the first run. -/
theorem sync_idempotent (fetch : String → Except String (Option Entry))
    (t1 t2 : Nat) (db : List DBRec) (inn : String) (ent : Option Entry)
    (hstrip : pyStrip inn = inn) (hne : inn ≠ "")
    (hf : fetch inn = Except.ok ent)
    (hdb : (db.filter (fun r => r.inn == inn)).length ≤ 1)
    (ht : t1 < t2) :
    ∃ rec1 : DBRec,
      (sync_accreditation_statuses fetch t1 db [inn]).2.filter
        (fun r => r.inn == inn) = [rec1]
      ∧ (sync_accreditation_statuses fetch t2
          (sync_accreditation_statuses fetch t1 db [inn]).2 [inn]).2.filter
            (fun r => r.inn == inn) = [{ rec1 with checked_at := t2 }]
      ∧ rec1.checked_at = t1 ∧ t1 < t2 := by
  have hu := uniqueSortedInns_single inn hstrip hne
  have hsync : ∀ (t : Nat) (d : List DBRec),
      (sync_accreditation_statuses fetch t d [inn]).2 =
        update_or_create d (recFor inn t ent) := by
    intro t d
    simp [sync_accreditation_statuses, hu, syncLoop, syncOne, hf]
  have h1 : (update_or_create db (recFor inn t1 ent)).filter
      (fun r => r.inn == inn) = [recFor inn t1 ent] :=
    update_or_create_filter_self inn db (recFor inn t1 ent) (recFor_inn inn t1 ent) hdb
  have hlen1 : ((update_or_create db (recFor inn t1 ent)).filter
      (fun r => r.inn == inn)).length ≤ 1 := by
    rw [h1]
    exact Nat.le_refl 1
  have h2 : (update_or_create (update_or_create db (recFor inn t1 ent))
      (recFor inn t2 ent)).filter (fun r => r.inn == inn) = [recFor inn t2 ent] :=
    update_or_create_filter_self inn (update_or_create db (recFor inn t1 ent))
      (recFor inn t2 ent) (recFor_inn inn t2 ent) hlen1
  refine ⟨recFor inn t1 ent, ?_, ?_, recFor_checked_at inn t1 ent, ht⟩
  · rw [hsync]
    exact h1
  · rw [hsync, hsync]
    rw [h2]
    rw [recFor_time_update inn t1 t2 ent]

/-- Witness for C3 at a concrete identifier with timestamps 0 and 1. -/
theorem sync_idempotent_witness :
    ∃ rec1 : DBRec,
      (sync_accreditation_statuses fetchStub 0 [] ["B"]).2.filter
        (fun r => r.inn == "B") = [rec1]
      ∧ (sync_accreditation_statuses fetchStub 1
          (sync_accreditation_statuses fetchStub 0 [] ["B"]).2 ["B"]).2.filter
            (fun r => r.inn == "B") = [{ rec1 with checked_at := 1 }]
      ∧ rec1.checked_at = 0 ∧ 0 < 1 :=
  sync_idempotent fetchStub 0 1 [] "B" none (by decide) (by decide)
    rfl (by decide) (by decide)

end Dashboard
